import Mathlib

/-!
Shallow embedding of `src/time.rs` of the askit-std-agents repository:
the duration-string parser `parse_duration_to_ms` and the five time
agents (Delay, Interval Timer, On Start, Schedule Timer, Throttle Time).

Machine integers are modelled as `Nat` / `Int`; Rust `u64` arithmetic
wraps, which is modelled by an explicit `% 2^64`.  The cast `i64 as u64`
is modelled by `u64_of_i64`.  Stateful agents are modelled as explicit
state-passing functions; one iteration of a background task's loop is
modelled as a `wake` step.  Task handles are modelled by task ids: the
`timer_handle` slot holds the id stored in the mutex, `live` is the set
of spawned-and-not-yet-aborted-or-exited tasks (a `JoinHandle` that is
overwritten without `abort` leaves its task running, i.e. still `live`),
and `next_task` produces fresh ids.
-/

namespace AskitTime

instance {ε α : Type} [DecidableEq ε] [DecidableEq α] :
    DecidableEq (Except ε α) := fun x y =>
  match x, y with
  | .ok a, .ok b => decidable_of_iff (a = b) (by simp)
  | .error a, .error b => decidable_of_iff (a = b) (by simp)
  | .ok _, .error _ => isFalse (by simp)
  | .error _, .ok _ => isFalse (by simp)

/-- `AgentError` of the host crate, reduced to the tags the code uses
(`InvalidConfig` messages are not distinguished). -/
inductive AgentError where
  | invalidConfig
  | noConfig
deriving DecidableEq, Repr

/-- Lifecycle status of an agent (host crate `AgentStatus`). -/
inductive AgentStatus where
  | Created
  | Start
  | Stop
deriving DecidableEq, Repr

/-- Routing context: the code only reads its channel `ctx.ch()`. -/
structure AgentContext where
  ch : String
deriving DecidableEq, Repr

/-- An `AgentData` value: unit, integer, or an opaque-to-this-core payload
identified by a token. -/
inductive AgentData where
  | unit
  | integer (i : Int)
  | other (tok : Nat)
deriving DecidableEq, Repr

/-- A successfully delivered emission: channel and payload. -/
structure Emission where
  ch : String
  data : AgentData
deriving DecidableEq, Repr

/-- The `i64 as u64` cast (two's-complement reinterpretation). -/
def u64_of_i64 (x : Int) : Nat := (x % (2 ^ 64 : Int)).toNat

/-- ASCII decimal digit, the characters matched by the parser's number
capture that `u64::from_str` accepts. -/
def isDigitC (c : Char) : Bool := 48 ≤ c.toNat && c.toNat ≤ 57

/-- ASCII letter, the regex class `[a-zA-Z]`. -/
def isAlphaC (c : Char) : Bool :=
  (65 ≤ c.toNat && c.toNat ≤ 90) || (97 ≤ c.toNat && c.toNat ≤ 122)

/-- Unicode `White_Space`, the class trimmed by Rust's `str::trim`. -/
def isWsC (c : Char) : Bool :=
  (9 ≤ c.toNat && c.toNat ≤ 13) || c.toNat == 32 || c.toNat == 133 ||
  c.toNat == 160 || c.toNat == 5760 ||
  (8192 ≤ c.toNat && c.toNat ≤ 8202) || c.toNat == 8232 ||
  c.toNat == 8233 || c.toNat == 8239 || c.toNat == 8287 ||
  c.toNat == 12288

/-- ASCII lower-casing of one character (what `str::to_lowercase` does on
the `[a-zA-Z]` characters the unit capture can contain). -/
def lowerC (c : Char) : Char :=
  if 65 ≤ c.toNat ∧ c.toNat ≤ 90 then Char.ofNat (c.toNat + 32) else c

/-- Rust `str::trim` on the character list of a string. -/
def rustTrim (l : List Char) : List Char :=
  ((l.dropWhile isWsC).reverse.dropWhile isWsC).reverse

/-- Numeric value of a digit string (the value `u64::from_str` computes
when all characters are digits). -/
def digitsToNat (l : List Char) : Nat :=
  l.foldl (fun a c => a * 10 + (c.toNat - 48)) 0

/-- Rust `u64::from_str`: an optional leading `+` (a `-` is rejected for
unsigned types), then one or more ASCII digits, value below `2^64`. -/
def u64FromStr (l : List Char) : Option Nat :=
  u64FromDigits (if l.head? = some '+' then l.tail else l)
where
  /-- The all-digit part: nonempty, all digits, value below `2^64`. -/
  u64FromDigits (ds : List Char) : Option Nat :=
    if ds.isEmpty then none
    else if ds.all isDigitC then
      if digitsToNat ds < 2 ^ 64 then some (digitsToNat ds) else none
    else none

/-- The anchored regex match of `^(\d+)(?:([a-zA-Z]+))?$`: the whole
string must be a nonempty digit run followed by a (possibly empty)
all-letter run; returns the two capture groups. -/
def regexSplit (t : List Char) : Option (List Char × List Char) :=
  if (t.takeWhile isDigitC).isEmpty then none
  else if (t.dropWhile isDigitC).all isAlphaC then
    some (t.takeWhile isDigitC, t.dropWhile isDigitC)
  else none

/-- Millisecond factor of a (lower-cased) unit string. -/
def unitFactor : List Char → Option Nat
  | ['m', 's'] => some 1
  | ['s'] => some 1000
  | ['m'] => some 60000
  | ['h'] => some 3600000
  | ['d'] => some 86400000
  | _ => none

/-- `MIN_DURATION` of `parse_duration_to_ms`. -/
def MIN_DURATION : Nat := 10

/-- `parse_duration_to_ms` of `src/time.rs`: trim, match
`^(\d+)(?:([a-zA-Z]+))?$`, parse the number as `u64`, default unit `s`,
lower-case the unit, multiply by the unit factor (u64 arithmetic, hence
`% 2^64`), floor at `MIN_DURATION`; if the regex does not match, parse
the whole untrimmed string as a `u64` count of seconds. -/
def parse_duration_to_ms (s : String) : Except AgentError Nat :=
  match regexSplit (rustTrim s.data) with
  | some (ds, rest) =>
    if digitsToNat ds < 2 ^ 64 then
      match unitFactor (if rest.isEmpty then ['s'] else rest.map lowerC) with
      | some f => .ok (max ((digitsToNat ds * f) % 2 ^ 64) MIN_DURATION)
      | none => .error .invalidConfig
    else .error .invalidConfig
  | none =>
    match u64FromStr s.data with
    | some n => .ok (max ((n * 1000) % 2 ^ 64) MIN_DURATION)
    | none => .error .invalidConfig

/-- Output channel of the interval timer (`CH_UNIT`). -/
def CH_UNIT : String := "unit"

/-- Output channel of the schedule timer (`CH_TIME`). -/
def CH_TIME : String := "time"

/-- `DELAY_MS_DEFAULT`. -/
def DELAY_MS_DEFAULT : Int := 1000

/-- `MAX_NUM_DATA_DEFAULT`. -/
def MAX_NUM_DATA_DEFAULT : Int := 10

/-- `config.get_integer_or(key, default)`. -/
def get_integer_or (v : Option Int) (d : Int) : Int := v.getD d

/-- The configuration keys the Delay agent reads. -/
structure DelayConfig where
  delay : Option Int := none
  max_num_data : Option Int := none
deriving DecidableEq, Repr

/-- State of a `DelayAgent`: the shared in-flight counter
`num_waiting_data` (an `i64` behind `Arc<Mutex<_>>`). -/
structure DelayAgent where
  num_waiting_data : Int
deriving DecidableEq, Repr

/-- The admission critical section of `DelayAgent::process`: under the
lock, drop if the counter is at or above the cap, else increment. -/
def DelayAgent.acquire (max_num_data : Int) (s : DelayAgent) :
    Bool × DelayAgent :=
  if max_num_data ≤ s.num_waiting_data then (false, s)
  else (true, ⟨s.num_waiting_data + 1⟩)

/-- `DelayAgent::process`.  `emitRes` is the outcome the host's routing
call (`try_output`) would return for this delivery.  The result is
(returned value, final counter state, delivered emissions, milliseconds
slept — `None` when the call returned without sleeping).  A failed
`try_output` is propagated by `?`, skipping the decrement. -/
def DelayAgent.process (config : Option DelayConfig)
    (emitRes : Except AgentError Unit) (ctx : AgentContext)
    (data : AgentData) (s : DelayAgent) :
    Except AgentError Unit × DelayAgent × List Emission × Option Nat :=
  match config with
  | none => (.error .noConfig, s, [], none)
  | some cfg =>
    let delay_ms := get_integer_or cfg.delay DELAY_MS_DEFAULT
    let max_num_data := get_integer_or cfg.max_num_data MAX_NUM_DATA_DEFAULT
    match DelayAgent.acquire max_num_data s with
    | (false, s1) => (.ok (), s1, [], none)
    | (true, s1) =>
      match emitRes with
      | .error e => (.error e, s1, [], some (u64_of_i64 delay_ms))
      | .ok _ =>
        (.ok (), ⟨s1.num_waiting_data - 1⟩, [⟨ctx.ch, data⟩],
          some (u64_of_i64 delay_ms))

/-- State of an `IntervalTimerAgent`.  `timer_handle` is the content of
the `Arc<Mutex<Option<JoinHandle>>>` slot, as a task id; `live` records
the spawned tasks that have been neither aborted nor exited (dropping a
`JoinHandle` by overwriting the slot does not abort its task);
`next_task` supplies fresh ids. -/
structure IntervalTimerAgent where
  interval_ms : Nat
  timer_handle : Option Nat
  live : List Nat
  next_task : Nat
  status : AgentStatus
deriving DecidableEq, Repr

/-- `IntervalTimerAgent::start_timer`: spawn a new looping task and store
its handle in the slot, overwriting (NOT aborting) any previous one. -/
def IntervalTimerAgent.start_timer (w : IntervalTimerAgent) :
    IntervalTimerAgent :=
  { w with
    timer_handle := some w.next_task
    live := w.live ++ [w.next_task]
    next_task := w.next_task + 1 }

/-- `IntervalTimerAgent::stop_timer`: take the handle out of the slot and
abort that task. -/
def IntervalTimerAgent.stop_timer (w : IntervalTimerAgent) :
    IntervalTimerAgent :=
  match w.timer_handle with
  | some t => { w with timer_handle := none, live := w.live.erase t }
  | none => w

/-- `IntervalTimerAgent::start` (the `AsAgent` hook). -/
def IntervalTimerAgent.start (w : IntervalTimerAgent) :
    IntervalTimerAgent :=
  w.start_timer

/-- `IntervalTimerAgent::stop`. -/
def IntervalTimerAgent.stop (w : IntervalTimerAgent) :
    IntervalTimerAgent :=
  w.stop_timer

/-- `IntervalTimerAgent::set_config` restricted to the `interval` key it
reads (`None` models a config without that key). -/
def IntervalTimerAgent.set_config (interval : Option String)
    (w : IntervalTimerAgent) :
    Except AgentError Unit × IntervalTimerAgent :=
  match interval with
  | none => (.ok (), w)
  | some str =>
    match parse_duration_to_ms str with
    | .error e => (.error e, w)
    | .ok new_interval =>
      if new_interval ≠ w.interval_ms then
        if ({ w with interval_ms := new_interval }
            : IntervalTimerAgent).status = .Start then
          (.ok (), ({ w with interval_ms := new_interval }
            : IntervalTimerAgent).stop_timer.start_timer)
        else (.ok (), { w with interval_ms := new_interval })
      else (.ok (), w)

/-- One iteration of the interval task's loop, executed by task `t` after
its sleep: break if the slot is empty, otherwise emit a unit signal on
`CH_UNIT` (a routing failure is logged and the loop continues).  Returns
(state, delivered emissions, whether the loop continues). -/
def IntervalTimerAgent.wake (emitOk : Bool) (t : Nat)
    (w : IntervalTimerAgent) :
    IntervalTimerAgent × List Emission × Bool :=
  if w.timer_handle = none then ({ w with live := w.live.erase t }, [], false)
  else (w, if emitOk then [⟨CH_UNIT, .unit⟩] else [], true)

/-- State of a `ScheduleTimerAgent`.  The compiled `cron::Schedule` is
represented by the value an external compile function returns for the
schedule string. -/
structure ScheduleTimerAgent where
  cron_schedule : Option String
  timer_handle : Option Nat
  live : List Nat
  next_task : Nat
  status : AgentStatus
deriving DecidableEq, Repr

/-- The configuration key the schedule agent reads. -/
structure ScheduleConfig where
  schedule : Option String := none
deriving DecidableEq, Repr

/-- `ScheduleTimerAgent::parse_schedule`: a blank string clears the
schedule; otherwise the string must compile (`compile` models the cron
crate's `Schedule::from_str`) or an `InvalidConfig` error is returned
with the agent unchanged. -/
def ScheduleTimerAgent.parse_schedule (compile : String → Option String)
    (schedule_str : String) (w : ScheduleTimerAgent) :
    Except AgentError ScheduleTimerAgent :=
  if (rustTrim schedule_str.data).isEmpty then
    .ok { w with cron_schedule := none }
  else
    match compile schedule_str with
    | none => .error .invalidConfig
    | some sch => .ok { w with cron_schedule := some sch }

/-- `ScheduleTimerAgent::start_timer`: errors when no schedule is
defined; otherwise spawns the loop task and stores its handle,
overwriting (not aborting) any previous one. -/
def ScheduleTimerAgent.start_timer (w : ScheduleTimerAgent) :
    Except AgentError ScheduleTimerAgent :=
  match w.cron_schedule with
  | none => .error .invalidConfig
  | some _ =>
    .ok { w with
      timer_handle := some w.next_task
      live := w.live ++ [w.next_task]
      next_task := w.next_task + 1 }

/-- `ScheduleTimerAgent::stop_timer`. -/
def ScheduleTimerAgent.stop_timer (w : ScheduleTimerAgent) :
    ScheduleTimerAgent :=
  match w.timer_handle with
  | some t => { w with timer_handle := none, live := w.live.erase t }
  | none => w

/-- `ScheduleTimerAgent::start`: starts the timer only when a schedule is
present. -/
def ScheduleTimerAgent.start (w : ScheduleTimerAgent) :
    Except AgentError ScheduleTimerAgent :=
  if w.cron_schedule.isSome then w.start_timer else .ok w

/-- `ScheduleTimerAgent::new` restricted to the `schedule` key. -/
def ScheduleTimerAgent.new (compile : String → Option String)
    (config : Option ScheduleConfig) :
    Except AgentError ScheduleTimerAgent :=
  let w0 : ScheduleTimerAgent :=
    { cron_schedule := none, timer_handle := none, live := [],
      next_task := 0, status := .Created }
  match config with
  | none => .ok w0
  | some cfg =>
    match cfg.schedule with
    | none => .ok w0
    | some schedule_str =>
      if schedule_str.data.isEmpty then .ok w0
      else ScheduleTimerAgent.parse_schedule compile schedule_str w0

/-- `ScheduleTimerAgent::set_config`: parse the schedule (propagating an
error with nothing mutated), then, when running, stop the timer and
start it again when a schedule is present — with no comparison against
the previous schedule value. -/
def ScheduleTimerAgent.set_config (compile : String → Option String)
    (schedule : Option String) (w : ScheduleTimerAgent) :
    Except AgentError Unit × ScheduleTimerAgent :=
  match schedule with
  | none => (.ok (), w)
  | some schedule_str =>
    match ScheduleTimerAgent.parse_schedule compile schedule_str w with
    | .error e => (.error e, w)
    | .ok w1 =>
      if w1.status = .Start then
        let w2 := w1.stop_timer
        if w2.cron_schedule.isSome then
          match w2.start_timer with
          | .ok w3 => (.ok (), w3)
          | .error e => (.error e, w2)
        else (.ok (), w2)
      else (.ok (), w1)

/-- One iteration of the schedule task's loop, executed by task `t`:
`hasNext` is whether `schedule.upcoming(Utc).next()` found an instant
(if not, the loop logs and terminates); after the sleep the task breaks
if the slot is empty, else emits the current local timestamp `now` on
`CH_TIME` (a routing failure is logged and the loop continues). -/
def ScheduleTimerAgent.wake (hasNext : Bool) (emitOk : Bool) (now : Int)
    (t : Nat) (w : ScheduleTimerAgent) :
    ScheduleTimerAgent × List Emission × Bool :=
  if !hasNext then ({ w with live := w.live.erase t }, [], false)
  else if w.timer_handle = none then
    ({ w with live := w.live.erase t }, [], false)
  else (w, if emitOk then [⟨CH_TIME, .integer now⟩] else [], true)

/-- The configuration keys the Throttle agent reads. -/
structure ThrottleConfig where
  time : Option String := none
  max_num_data : Option Int := none
deriving DecidableEq, Repr

/-- State of a `ThrottleTimeAgent`: parsed period `time_ms`, the
`max_num_data` bound, the FIFO `waiting_data` queue of
(context, data) pairs, and the timer slot / live tasks as above. -/
structure ThrottleTimeAgent where
  time_ms : Nat
  max_num_data : Int
  waiting_data : List (AgentContext × AgentData)
  timer_handle : Option Nat
  live : List Nat
  next_task : Nat
deriving DecidableEq, Repr

/-- `ThrottleTimeAgent::start_timer`: spawn the cycle task and store its
handle, overwriting (not aborting) any previous one. -/
def ThrottleTimeAgent.start_timer (s : ThrottleTimeAgent) :
    ThrottleTimeAgent :=
  { s with
    timer_handle := some s.next_task
    live := s.live ++ [s.next_task]
    next_task := s.next_task + 1 }

/-- `ThrottleTimeAgent::stop_timer`. -/
def ThrottleTimeAgent.stop_timer (s : ThrottleTimeAgent) :
    ThrottleTimeAgent :=
  match s.timer_handle with
  | some t => { s with timer_handle := none, live := s.live.erase t }
  | none => s

/-- `ThrottleTimeAgent::stop`. -/
def ThrottleTimeAgent.stop (s : ThrottleTimeAgent) : ThrottleTimeAgent :=
  s.stop_timer

/-- First block of `ThrottleTimeAgent::set_config`: update `time_ms` if
the parsed `time` changed (a parse error propagates with nothing
mutated). -/
def ThrottleTimeAgent.set_time (time : Option String)
    (s : ThrottleTimeAgent) : Except AgentError ThrottleTimeAgent :=
  match time with
  | none => .ok s
  | some str =>
    match parse_duration_to_ms str with
    | .error e => .error e
    | .ok new_time =>
      if new_time ≠ s.time_ms then .ok { s with time_ms := new_time }
      else .ok s

/-- Second block of `ThrottleTimeAgent::set_config`: if `max_num_data`
changed, drop the oldest excess items when the new bound is nonnegative
and exceeded, and store the new bound. -/
def ThrottleTimeAgent.set_max (m : Option Int) (s : ThrottleTimeAgent) :
    ThrottleTimeAgent :=
  match m with
  | none => s
  | some m =>
    if s.max_num_data ≠ m then
      { s with
        waiting_data :=
          if 0 ≤ m ∧ m.toNat < s.waiting_data.length then
            s.waiting_data.drop (s.waiting_data.length - m.toNat)
          else s.waiting_data
        max_num_data := m }
    else s

/-- `ThrottleTimeAgent::set_config`: the `time` block, then the
`max_num_data` block. -/
def ThrottleTimeAgent.set_config (config : ThrottleConfig)
    (s : ThrottleTimeAgent) :
    Except AgentError Unit × ThrottleTimeAgent :=
  match ThrottleTimeAgent.set_time config.time s with
  | .error e => (.error e, s)
  | .ok s1 => (.ok (), ThrottleTimeAgent.set_max config.max_num_data s1)

/-- `ThrottleTimeAgent::process`: while a cycle is in flight
(slot occupied) the item is queued per the `max_num_data` policy
(dropped when the bound is 0, oldest dropped when a positive bound is
exceeded); otherwise the cycle task is started and the item is emitted
immediately on its arrival channel (a routing failure propagates by `?`,
after the timer has already been started). -/
def ThrottleTimeAgent.process (emitRes : Except AgentError Unit)
    (ctx : AgentContext) (data : AgentData) (s : ThrottleTimeAgent) :
    Except AgentError Unit × ThrottleTimeAgent × List Emission :=
  if s.timer_handle.isSome then
    if s.max_num_data = 0 then (.ok (), s, [])
    else
      (.ok (),
        { s with waiting_data :=
            if 0 < s.max_num_data ∧ s.max_num_data.toNat
                < (s.waiting_data ++ [(ctx, data)]).length then
              (s.waiting_data ++ [(ctx, data)]).drop 1
            else s.waiting_data ++ [(ctx, data)] }, [])
  else
    let s1 := s.start_timer
    match emitRes with
    | .error e => (.error e, s1, [])
    | .ok _ => (.ok (), s1, [⟨ctx.ch, data⟩])

/-- One iteration of the throttle cycle task's loop, executed by task
`t` after sleeping `time_ms`: break if the slot is empty; pop and emit
the oldest queued item if any (a routing failure is logged and
swallowed); then, if the queue is (now) empty, clear the slot and break,
else loop for another sleep. -/
def ThrottleTimeAgent.wake (emitOk : Bool) (t : Nat)
    (s : ThrottleTimeAgent) :
    ThrottleTimeAgent × List Emission × Bool :=
  if s.timer_handle = none then
    ({ s with live := s.live.erase t }, [], false)
  else
    match s.waiting_data with
    | [] =>
      ({ s with timer_handle := none, live := s.live.erase t }, [], false)
    | (ctx, data) :: rest =>
      let ems := if emitOk then [⟨ctx.ch, data⟩] else []
      if rest.isEmpty then
        ({ s with
            waiting_data := []
            timer_handle := none
            live := s.live.erase t }, ems, false)
      else ({ s with waiting_data := rest }, ems, true)

/-- At most one active task per slot: the live tasks are exactly the one
named by the slot (or none). -/
def IntervalTimerAgent.oneTask (w : IntervalTimerAgent) : Prop :=
  w.live = match w.timer_handle with
    | some t => [t]
    | none => []

/-- At most one active task for the throttle slot. -/
def ThrottleTimeAgent.oneTask (s : ThrottleTimeAgent) : Prop :=
  s.live = match s.timer_handle with
    | some t => [t]
    | none => []

/-- The `max_num_data` queue policy of the Throttle agent: a zero bound
keeps the queue empty, a positive bound caps its length (a negative
bound is unbounded). -/
def queueInv (s : ThrottleTimeAgent) : Prop :=
  (s.max_num_data = 0 → s.waiting_data = []) ∧
  (0 < s.max_num_data → s.waiting_data.length ≤ s.max_num_data.toNat)

instance (s : ThrottleTimeAgent) : Decidable (queueInv s) := by
  unfold queueInv
  infer_instance

instance (w : IntervalTimerAgent) : Decidable w.oneTask := by
  unfold IntervalTimerAgent.oneTask
  infer_instance

instance (s : ThrottleTimeAgent) : Decidable s.oneTask := by
  unfold ThrottleTimeAgent.oneTask
  infer_instance

end AskitTime

namespace AskitTime

theorem not_ws_of_digit {c : Char} (h : isDigitC c = true) :
    isWsC c = false := by
  simp [isDigitC] at h
  simp [isWsC]
  omega

theorem not_ws_of_alpha {c : Char} (h : isAlphaC c = true) :
    isWsC c = false := by
  simp [isAlphaC] at h
  simp [isWsC]
  omega

theorem not_digit_of_alpha {c : Char} (h : isAlphaC c = true) :
    isDigitC c = false := by
  simp [isAlphaC] at h
  simp [isDigitC]
  omega

theorem dropWhile_all_false {p : Char → Bool} :
    ∀ {l : List Char}, (∀ c ∈ l, p c = false) → l.dropWhile p = l
  | [], _ => rfl
  | c :: t, h => by
    have hc : p c = false := h c (List.mem_cons_self c t)
    simp [List.dropWhile_cons, hc]

theorem takeWhile_head_false {p : Char → Bool} :
    ∀ {l : List Char}, (∀ c ∈ l.take 1, p c = false) → l.takeWhile p = []
  | [], _ => rfl
  | c :: t, h => by
    have hc : p c = false := h c (by simp)
    simp [List.takeWhile_cons, hc]

theorem dropWhile_append_all {p : Char → Bool} :
    ∀ (l1 l2 : List Char), (∀ c ∈ l1, p c = true) →
      (l1 ++ l2).dropWhile p = l2.dropWhile p
  | [], _, _ => rfl
  | c :: t, l2, h => by
    have hc : p c = true := h c (List.mem_cons_self c t)
    simp only [List.cons_append, List.dropWhile_cons, hc, if_true]
    exact dropWhile_append_all t l2 fun x hx => h x (List.mem_cons_of_mem c hx)

theorem dropWhile_cons_head {p : Char → Bool} (c : Char) (l : List Char)
    (h : p c = false) : (c :: l).dropWhile p = c :: l := by
  simp [List.dropWhile_cons, h]

theorem rustTrim_no_ws {l : List Char} (h : ∀ c ∈ l, isWsC c = false) :
    rustTrim l = l := by
  unfold rustTrim
  rw [dropWhile_all_false h,
    dropWhile_all_false fun c hc => h c (List.mem_reverse.mp hc)]
  exact List.reverse_reverse l

theorem rustTrim_sandwich {ws1 core ws2 : List Char}
    (h1 : ∀ c ∈ ws1, isWsC c = true) (h2 : ∀ c ∈ ws2, isWsC c = true)
    (hc : ∀ c ∈ core, isWsC c = false) (hne : core ≠ []) :
    rustTrim (ws1 ++ core ++ ws2) = core := by
  obtain ⟨c, t, rfl⟩ : ∃ c t, core = c :: t := by
    cases core with
    | nil => exact absurd rfl hne
    | cons c t => exact ⟨c, t, rfl⟩
  unfold rustTrim
  rw [List.append_assoc, dropWhile_append_all ws1 ((c :: t) ++ ws2) h1,
    List.cons_append,
    dropWhile_cons_head _ _ (hc c (List.mem_cons_self c t)),
    show c :: (t ++ ws2) = (c :: t) ++ ws2 from rfl, List.reverse_append,
    dropWhile_append_all _ _ (fun x hx => h2 x (List.mem_reverse.mp hx)),
    dropWhile_all_false fun x hx => hc x (List.mem_reverse.mp hx)]
  exact List.reverse_reverse _

theorem takeWhile_append_digits :
    ∀ (ds us : List Char), (∀ c ∈ ds, isDigitC c = true) →
      (∀ c ∈ us.take 1, isDigitC c = false) →
      (ds ++ us).takeWhile isDigitC = ds ∧
        (ds ++ us).dropWhile isDigitC = us
  | [], us, _, h2 => by
    rw [List.nil_append]
    exact ⟨takeWhile_head_false h2, dropWhile_all_false_take h2⟩
  | c :: ds, us, h1, h2 => by
    have hc : isDigitC c = true := h1 c (List.mem_cons_self c ds)
    have ih := takeWhile_append_digits ds us
      (fun x hx => h1 x (List.mem_cons_of_mem c hx)) h2
    constructor
    · simp only [List.cons_append, List.takeWhile_cons, hc, if_true, ih.1]
    · simp only [List.cons_append, List.dropWhile_cons, hc, if_true, ih.2]
where
  dropWhile_all_false_take {us : List Char}
      (h : ∀ c ∈ us.take 1, isDigitC c = false) :
      us.dropWhile isDigitC = us := by
    cases us with
    | nil => rfl
    | cons u t => exact dropWhile_cons_head u t (h u (by simp))

theorem regexSplit_append {ds us : List Char} (hne : ds ≠ [])
    (h1 : ∀ c ∈ ds, isDigitC c = true) (h2 : ∀ c ∈ us, isAlphaC c = true) :
    regexSplit (ds ++ us) = some (ds, us) := by
  have h2' : ∀ c ∈ us.take 1, isDigitC c = false := fun c hc =>
    not_digit_of_alpha (h2 c (List.mem_of_mem_take hc))
  obtain ⟨ht, hd⟩ := takeWhile_append_digits ds us h1 h2'
  unfold regexSplit
  rw [ht, hd, if_neg (by simpa using hne), if_pos (List.all_eq_true.mpr h2)]

theorem regexSplit_no_digit {t : List Char}
    (h : ∀ c ∈ t.take 1, isDigitC c = false) : regexSplit t = none := by
  unfold regexSplit
  rw [takeWhile_head_false h]
  rfl

theorem toNat_ofNat {n : Nat} (h : n < 55296) : (Char.ofNat n).toNat = n := by
  have hv : Nat.isValidChar n := Or.inl h
  simp [Char.ofNat, hv, Char.ofNatAux, Char.toNat]
  rfl

theorem lowerC_toNat (c : Char) :
    (lowerC c).toNat =
      if 65 ≤ c.toNat ∧ c.toNat ≤ 90 then c.toNat + 32 else c.toNat := by
  unfold lowerC
  split
  · next h => exact toNat_ofNat (by omega)
  · rfl

theorem lowerC_eq_self {c : Char} (h : ¬(65 ≤ c.toNat ∧ c.toNat ≤ 90)) :
    lowerC c = c := by
  unfold lowerC
  exact if_neg h

theorem lowerC_lowerC (c : Char) : lowerC (lowerC c) = lowerC c := by
  apply lowerC_eq_self
  rw [lowerC_toNat]
  split
  · omega
  · next h => exact h

theorem alpha_lowerC {c : Char} (h : isAlphaC c = true) :
    isAlphaC (lowerC c) = true := by
  simp [isAlphaC] at h ⊢
  rw [lowerC_toNat]
  split <;> omega

/-- The core evaluation of `parse_duration_to_ms` on a string of the
form whitespace ++ digits ++ letters ++ whitespace. -/
theorem parse_padded_core {ws1 ds us ws2 : List Char} (hne : ds ≠ [])
    (h1 : ∀ c ∈ ds, isDigitC c = true) (h2 : ∀ c ∈ us, isAlphaC c = true)
    (hw1 : ∀ c ∈ ws1, isWsC c = true) (hw2 : ∀ c ∈ ws2, isWsC c = true) :
    parse_duration_to_ms (String.mk (ws1 ++ (ds ++ us) ++ ws2)) =
      if digitsToNat ds < 2 ^ 64 then
        match unitFactor (if us.isEmpty then ['s'] else us.map lowerC) with
        | some f => .ok (max ((digitsToNat ds * f) % 2 ^ 64) MIN_DURATION)
        | none => .error .invalidConfig
      else .error .invalidConfig := by
  have hcore : ∀ c ∈ ds ++ us, isWsC c = false := by
    intro c hc
    rcases List.mem_append.mp hc with h | h
    · exact not_ws_of_digit (h1 c h)
    · exact not_ws_of_alpha (h2 c h)
  have hcne : ds ++ us ≠ [] := by
    cases ds with
    | nil => exact absurd rfl hne
    | cons c t => simp
  unfold parse_duration_to_ms
  rw [show (String.mk (ws1 ++ (ds ++ us) ++ ws2)).data
      = ws1 ++ (ds ++ us) ++ ws2 from rfl]
  rw [rustTrim_sandwich hw1 hw2 hcore hcne, regexSplit_append hne h1 h2]

/-- Special case: no padding. -/
theorem parse_valid_core {ds us : List Char} (hne : ds ≠ [])
    (h1 : ∀ c ∈ ds, isDigitC c = true) (h2 : ∀ c ∈ us, isAlphaC c = true) :
    parse_duration_to_ms (String.mk (ds ++ us)) =
      if digitsToNat ds < 2 ^ 64 then
        match unitFactor (if us.isEmpty then ['s'] else us.map lowerC) with
        | some f => .ok (max ((digitsToNat ds * f) % 2 ^ 64) MIN_DURATION)
        | none => .error .invalidConfig
      else .error .invalidConfig := by
  have := @parse_padded_core [] ds us [] hne h1 h2
    (by intro c hc; cases hc) (by intro c hc; cases hc)
  simpa using this

theorem unitFactor_pos {u : List Char} {f : Nat}
    (h : unitFactor u = some f) : 1 ≤ f := by
  unfold unitFactor at h
  split at h <;> simp_all <;> omega

/-- Every successful parse is at least `MIN_DURATION` (10 ms). -/
theorem parse_min {s : String} {v : Nat}
    (h : parse_duration_to_ms s = .ok v) : MIN_DURATION ≤ v := by
  unfold parse_duration_to_ms at h
  split at h
  · split at h
    · split at h
      · simp only [Except.ok.injEq] at h
        exact h ▸ le_max_right _ _
      · cases h
    · cases h
  · split at h
    · simp only [Except.ok.injEq] at h
      exact h ▸ le_max_right _ _
    · cases h

theorem mem_of_mem_rustTrim {c : Char} {l : List Char}
    (h : c ∈ rustTrim l) : c ∈ l := by
  unfold rustTrim at h
  rw [List.mem_reverse] at h
  have h1 := (List.dropWhile_sublist _).mem h
  rw [List.mem_reverse] at h1
  exact (List.dropWhile_sublist _).mem h1

theorem u64FromDigits_none {ds : List Char}
    (h : ¬(ds ≠ [] ∧ (∀ c ∈ ds, isDigitC c = true) ∧
      digitsToNat ds < 2 ^ 64)) :
    u64FromStr.u64FromDigits ds = none := by
  unfold u64FromStr.u64FromDigits
  by_cases he : ds.isEmpty
  · rw [if_pos he]
  · rw [if_neg he]
    by_cases ha : ds.all isDigitC
    · rw [if_pos ha]
      rw [if_neg]
      intro hlt
      exact h ⟨by simpa using he, List.all_eq_true.mp ha, hlt⟩
    · rw [if_neg ha]

/-- A successful `u64::from_str` forces the string's shape: an optional
leading `+` followed by nonempty digits; in particular no whitespace and
no leading `-`. -/
theorem u64FromStr_some {l : List Char} {n : Nat}
    (h : u64FromStr l = some n) :
    (∀ c ∈ l, isWsC c = false) ∧
      (l.head? = some '+' ∨ ∃ c t, l = c :: t ∧ isDigitC c = true) := by
  unfold u64FromStr at h
  by_cases hh : l.head? = some '+'
  · rw [if_pos hh] at h
    obtain ⟨c, t, rfl⟩ : ∃ c t, l = c :: t := by
      cases l with
      | nil => cases hh
      | cons c t => exact ⟨c, t, rfl⟩
    have hc : c = '+' := by simpa using hh
    subst hc
    by_contra hcon
    rw [u64FromDigits_none] at h
    · cases h
    · intro ⟨hne, hdig, _⟩
      apply hcon
      refine ⟨?_, Or.inl rfl⟩
      intro x hx
      rcases List.mem_cons.mp hx with rfl | hx
      · decide
      · exact not_ws_of_digit (hdig x hx)
  · rw [if_neg hh] at h
    by_contra hcon
    rw [u64FromDigits_none] at h
    · cases h
    · intro ⟨hne, hdig, _⟩
      apply hcon
      obtain ⟨c, t, rfl⟩ : ∃ c t, l = c :: t := by
        cases l with
        | nil => exact absurd rfl hne
        | cons c t => exact ⟨c, t, rfl⟩
      exact ⟨fun x hx => not_ws_of_digit (hdig x hx),
        Or.inr ⟨c, t, rfl, hdig c (List.mem_cons_self c t)⟩⟩

/-- A string containing no decimal digit at all fails to parse. -/
theorem parse_no_digit {s : String}
    (h : ∀ c ∈ s.data, isDigitC c = false) :
    parse_duration_to_ms s = .error .invalidConfig := by
  unfold parse_duration_to_ms
  rw [regexSplit_no_digit fun c hc =>
    h c (mem_of_mem_rustTrim (List.mem_of_mem_take hc))]
  unfold u64FromStr
  rw [u64FromDigits_none]
  intro ⟨hne, hdig, _⟩
  by_cases hh : s.data.head? = some '+'
  · rw [if_pos hh] at hne hdig
    obtain ⟨c, t, hct⟩ : ∃ c t, s.data.tail = c :: t := by
      cases ht : s.data.tail with
      | nil => exact absurd ht hne
      | cons c t => exact ⟨c, t, rfl⟩
    have hc : isDigitC c = true := hdig c (by rw [hct]; exact List.mem_cons_self c t)
    have : c ∈ s.data := by
      have := List.tail_sublist s.data
      rw [hct] at this
      exact this.mem (List.mem_cons_self c t)
    rw [h c this] at hc
    cases hc
  · rw [if_neg hh] at hne hdig
    obtain ⟨c, t, hct⟩ : ∃ c t, s.data = c :: t := by
      cases ht : s.data with
      | nil => exact absurd ht hne
      | cons c t => exact ⟨c, t, rfl⟩
    have hc : isDigitC c = true := hdig c (by rw [hct]; exact List.mem_cons_self c t)
    rw [h c (by rw [hct]; exact List.mem_cons_self c t)] at hc
    cases hc

/-- A string whose trimmed form starts with `-` fails to parse. -/
theorem parse_neg {s : String} {rest : List Char}
    (h : rustTrim s.data = '-' :: rest) :
    parse_duration_to_ms s = .error .invalidConfig := by
  unfold parse_duration_to_ms
  rw [h, regexSplit_no_digit (by intro c hc; simp at hc; subst hc; decide)]
  cases hfs : u64FromStr s.data with
  | none => rfl
  | some n =>
    exfalso
    obtain ⟨hws, hhead⟩ := u64FromStr_some hfs
    have htr : rustTrim s.data = s.data := rustTrim_no_ws hws
    rw [htr] at h
    rcases hhead with hp | ⟨c, t, hct, hd⟩
    · rw [h] at hp
      simp at hp
    · rw [hct] at h
      cases h
      cases hd

/-- A digits-plus-letters string whose (lower-cased) unit is not one of
ms, s, m, h, d fails to parse. -/
theorem parse_unknown_unit {s : String} {ds us : List Char}
    (ht : rustTrim s.data = ds ++ us) (hne : ds ≠ [])
    (h1 : ∀ c ∈ ds, isDigitC c = true) (hune : us ≠ [])
    (h2 : ∀ c ∈ us, isAlphaC c = true)
    (hf : unitFactor (us.map lowerC) = none) :
    parse_duration_to_ms s = .error .invalidConfig := by
  have hue : us.isEmpty = false := by
    cases us with
    | nil => exact absurd rfl hune
    | cons c t => rfl
  unfold parse_duration_to_ms
  rw [ht, regexSplit_append hne h1 h2]
  show (if digitsToNat ds < 2 ^ 64 then
      match unitFactor (if us.isEmpty then ['s'] else us.map lowerC) with
      | some f => Except.ok (max ((digitsToNat ds * f) % 2 ^ 64) MIN_DURATION)
      | none => Except.error AgentError.invalidConfig
    else Except.error AgentError.invalidConfig)
    = Except.error AgentError.invalidConfig
  rw [hue]
  simp only [Bool.false_eq_true, if_false, hf]
  split <;> rfl

example : parse_duration_to_ms "2s" = .ok 2000 := by decide
example : parse_duration_to_ms "500ms" = .ok 500 := by decide
example : parse_duration_to_ms "1m" = .ok 60000 := by decide
example : parse_duration_to_ms "5" = .ok 5000 := by decide
example : parse_duration_to_ms " 2S " = .ok 2000 := by decide
example : parse_duration_to_ms "+5" = .ok 5000 := by decide
example : parse_duration_to_ms "-5" = .error .invalidConfig := by decide
example : parse_duration_to_ms "abc" = .error .invalidConfig := by decide
example : parse_duration_to_ms "5x" = .error .invalidConfig := by decide
example : parse_duration_to_ms "0ms" = .ok 10 := by decide

/-- C1, counterexample: the claim as stated fails for a syntactically
valid duration string whose product `n * factor` overflows 64 bits —
`"18446744073709551615m"` parses to the wrapped `u64` product
`(2^64 - 1) * 60000 mod 2^64`, not to `n * 60000`. -/
theorem C1_cex :
    parse_duration_to_ms "18446744073709551615m"
      = .ok 18446744073709491616 ∧
    (18446744073709491616 : Nat) ≠ 18446744073709551615 * 60000 := by
  exact ⟨by decide, by decide⟩

/-- C1, amended: for every valid duration string `{n}{unit}` (digits
`ds`, optional letter unit `us`, default unit seconds) whose product
with the unit's millisecond factor fits in 64 bits,
`parse_duration_to_ms` returns that product clamped below at 10 ms;
the spec's examples hold, and every successful parse is at least 10. -/
theorem C1_parse_valid :
    (∀ (ds us : List Char) (f : Nat), ds ≠ [] →
      (∀ c ∈ ds, isDigitC c = true) → (∀ c ∈ us, isAlphaC c = true) →
      unitFactor (if us.isEmpty then ['s'] else us.map lowerC) = some f →
      digitsToNat ds * f < 2 ^ 64 →
      parse_duration_to_ms (String.mk (ds ++ us))
        = .ok (max (digitsToNat ds * f) MIN_DURATION)) ∧
    parse_duration_to_ms "2s" = .ok 2000 ∧
    parse_duration_to_ms "500ms" = .ok 500 ∧
    parse_duration_to_ms "1m" = .ok 60000 ∧
    parse_duration_to_ms "5" = .ok 5000 ∧
    (∀ (s : String) (v : Nat), parse_duration_to_ms s = .ok v → 10 ≤ v) := by
  refine ⟨?_, by decide, by decide, by decide, by decide,
    fun s v h => parse_min h⟩
  intro ds us f hne h1 h2 hf hlt
  have hfpos : 1 ≤ f := unitFactor_pos hf
  have hnlt : digitsToNat ds < 2 ^ 64 := by
    have : digitsToNat ds ≤ digitsToNat ds * f :=
      Nat.le_mul_of_pos_right _ (by omega)
    omega
  rw [parse_valid_core hne h1 h2, if_pos hnlt, hf]
  show Except.ok (max (digitsToNat ds * f % 2 ^ 64) MIN_DURATION)
    = Except.ok (max (digitsToNat ds * f) MIN_DURATION)
  rw [Nat.mod_eq_of_lt hlt]

/-- C1, witness: the amended theorem applied at `"7h"`. -/
theorem C1_witness :
    parse_duration_to_ms (String.mk (['7'] ++ ['h']))
      = .ok (max (digitsToNat ['7'] * 3600000) MIN_DURATION) ∧
    max (digitsToNat ['7'] * 3600000) MIN_DURATION = 25200000 :=
  ⟨C1_parse_valid.1 ['7'] ['h'] 3600000 (by decide) (by decide) (by decide)
    (by decide) (by decide), by decide⟩

/-- C10: duration parsing is insensitive to the unit's letter case and
to surrounding whitespace — a digits-and-letters core padded with any
whitespace and with the unit in any case parses exactly as the trimmed
form with the unit lower-cased. -/
theorem C10_parse_case_ws :
    ∀ ds u ws1 ws2 : List Char, ds ≠ [] →
      (∀ c ∈ ds, isDigitC c = true) → (∀ c ∈ u, isAlphaC c = true) →
      (∀ c ∈ ws1, isWsC c = true) → (∀ c ∈ ws2, isWsC c = true) →
      parse_duration_to_ms (String.mk (ws1 ++ (ds ++ u) ++ ws2))
        = parse_duration_to_ms (String.mk (ds ++ u.map lowerC)) := by
  intro ds u ws1 ws2 hne h1 h2 hw1 hw2
  have h2' : ∀ c ∈ u.map lowerC, isAlphaC c = true := by
    intro c hc
    obtain ⟨x, hx, rfl⟩ := List.mem_map.mp hc
    exact alpha_lowerC (h2 x hx)
  rw [parse_padded_core hne h1 h2 hw1 hw2, parse_valid_core hne h1 h2']
  have hmap : (u.map lowerC).map lowerC = u.map lowerC := by
    rw [List.map_map]
    exact List.map_congr_left fun c _ => lowerC_lowerC c
  have hemp : (u.map lowerC).isEmpty = u.isEmpty := by
    cases u <;> rfl
  rw [hmap, hemp]

/-- C10, witness: `" 2S \t"` parses as `"2s"` does, namely to 2000 ms. -/
theorem C10_witness :
    parse_duration_to_ms
        (String.mk ([' '] ++ (['2'] ++ ['S']) ++ [' ', '\t']))
      = parse_duration_to_ms (String.mk (['2'] ++ (['S'].map lowerC))) ∧
    parse_duration_to_ms " 2S \t" = .ok 2000 ∧
    parse_duration_to_ms "2s" = .ok 2000 :=
  ⟨C10_parse_case_ws ['2'] ['S'] [' '] [' ', '\t'] (by decide) (by decide)
    (by decide) (by decide) (by decide), by decide, by decide⟩

/-- C7: every invalid duration string — containing no digit, negative
(trimmed form starting with `-`), or carrying an unknown unit — makes
`parse_duration_to_ms` fail with a configuration error, and `set_config`
of the Interval and Throttle agents returns that error with the stored
interval/time value, queue, and timer slot untouched. -/
theorem C7_invalid_rejected :
    (∀ s : String, (∀ c ∈ s.data, isDigitC c = false) →
      parse_duration_to_ms s = .error .invalidConfig) ∧
    (∀ (s : String) (rest : List Char), rustTrim s.data = '-' :: rest →
      parse_duration_to_ms s = .error .invalidConfig) ∧
    (∀ (s : String) (ds us : List Char), rustTrim s.data = ds ++ us →
      ds ≠ [] → (∀ c ∈ ds, isDigitC c = true) → us ≠ [] →
      (∀ c ∈ us, isAlphaC c = true) → unitFactor (us.map lowerC) = none →
      parse_duration_to_ms s = .error .invalidConfig) ∧
    (∀ (str : String) (e : AgentError) (w : IntervalTimerAgent),
      parse_duration_to_ms str = .error e →
      IntervalTimerAgent.set_config (some str) w = (.error e, w)) ∧
    (∀ (str : String) (e : AgentError) (m : Option Int)
      (s : ThrottleTimeAgent), parse_duration_to_ms str = .error e →
      ThrottleTimeAgent.set_config ⟨some str, m⟩ s = (.error e, s)) := by
  refine ⟨fun s h => parse_no_digit h, fun s rest h => parse_neg h,
    fun s ds us ht hne h1 hune h2 hf =>
      parse_unknown_unit ht hne h1 hune h2 hf, ?_, ?_⟩
  · intro str e w h
    simp [IntervalTimerAgent.set_config, h]
  · intro str e m s h
    simp [ThrottleTimeAgent.set_config, ThrottleTimeAgent.set_time, h]

/-- C7, witness: the three error classes at `"abc"`, `"-5"`, `"5x"`, and
the unchanged-state conclusion of `set_config` at concrete agents. -/
theorem C7_witness :
    parse_duration_to_ms "abc" = .error .invalidConfig ∧
    parse_duration_to_ms "-5" = .error .invalidConfig ∧
    parse_duration_to_ms "5x" = .error .invalidConfig ∧
    IntervalTimerAgent.set_config (some "5x") ⟨1000, some 0, [0], 1, .Start⟩
      = (.error .invalidConfig, ⟨1000, some 0, [0], 1, .Start⟩) ∧
    ThrottleTimeAgent.set_config ⟨some "5x", some 3⟩ ⟨1000, 0, [], none, [], 0⟩
      = (.error .invalidConfig, ⟨1000, 0, [], none, [], 0⟩) :=
  ⟨C7_invalid_rejected.1 "abc" (by decide),
    C7_invalid_rejected.2.1 "-5" ['5'] (by decide),
    C7_invalid_rejected.2.2.1 "5x" ['5'] ['x'] (by decide) (by decide)
      (by decide) (by decide) (by decide) (by decide),
    C7_invalid_rejected.2.2.2.1 "5x" .invalidConfig _ (by decide),
    C7_invalid_rejected.2.2.2.2 "5x" .invalidConfig (some 3) _ (by decide)⟩

/-- C4: a `process` call on the Delay agent with the counter at or above
the cap returns success, emits nothing and leaves the counter unchanged;
below the cap it increments the counter, sleeps the configured delay
(read from the call-time config, default `DELAY_MS_DEFAULT` = 1000 ms,
cap default `MAX_NUM_DATA_DEFAULT` = 10), emits the original message on
its arrival channel, and decrements the counter back. -/
theorem C4_delay_process :
    ∀ (cfg : DelayConfig) (ctx : AgentContext) (data : AgentData)
      (s : DelayAgent),
      (get_integer_or cfg.max_num_data MAX_NUM_DATA_DEFAULT
          ≤ s.num_waiting_data →
        DelayAgent.process (some cfg) (.ok ()) ctx data s
          = (.ok (), s, [], none)) ∧
      (s.num_waiting_data
          < get_integer_or cfg.max_num_data MAX_NUM_DATA_DEFAULT →
        DelayAgent.process (some cfg) (.ok ()) ctx data s
          = (.ok (), s, [⟨ctx.ch, data⟩],
              some (u64_of_i64 (get_integer_or cfg.delay DELAY_MS_DEFAULT))) ∧
        (DelayAgent.acquire
            (get_integer_or cfg.max_num_data MAX_NUM_DATA_DEFAULT)
            s).2.num_waiting_data = s.num_waiting_data + 1) ∧
      (0 ≤ get_integer_or cfg.delay DELAY_MS_DEFAULT →
        get_integer_or cfg.delay DELAY_MS_DEFAULT < 2 ^ 63 →
        u64_of_i64 (get_integer_or cfg.delay DELAY_MS_DEFAULT)
          = (get_integer_or cfg.delay DELAY_MS_DEFAULT).toNat) := by
  intro cfg ctx data s
  refine ⟨?_, ?_, ?_⟩
  · intro h
    simp [DelayAgent.process, DelayAgent.acquire, h]
  · intro h
    have h' : ¬(get_integer_or cfg.max_num_data MAX_NUM_DATA_DEFAULT
        ≤ s.num_waiting_data) := by omega
    constructor
    · simp only [DelayAgent.process, DelayAgent.acquire, if_neg h']
      have : s.num_waiting_data + 1 - 1 = s.num_waiting_data := by omega
      rw [this]
    · simp [DelayAgent.acquire, h']
  · intro h0 h1
    unfold u64_of_i64
    rw [Int.emod_eq_of_lt h0 (by omega)]

/-- C4, witness: both branches of the theorem at concrete inputs, with
the slept duration evaluated. -/
theorem C4_witness :
    DelayAgent.process (some ⟨some 500, some 2⟩) (.ok ()) ⟨"in"⟩
        (.other 7) ⟨2⟩ = (.ok (), ⟨2⟩, [], none) ∧
    DelayAgent.process (some ⟨some 500, some 2⟩) (.ok ()) ⟨"in"⟩
        (.other 7) ⟨0⟩
      = (.ok (), ⟨0⟩, [⟨"in", .other 7⟩],
          some (u64_of_i64 (get_integer_or (some 500) DELAY_MS_DEFAULT))) ∧
    u64_of_i64 (get_integer_or (some 500) DELAY_MS_DEFAULT) = 500 :=
  ⟨(C4_delay_process ⟨some 500, some 2⟩ ⟨"in"⟩ (.other 7) ⟨2⟩).1 (by decide),
    ((C4_delay_process ⟨some 500, some 2⟩ ⟨"in"⟩ (.other 7) ⟨0⟩).2.1
      (by decide)).1, by decide⟩

/-- C3, counterexample: the claim says an emit failure is swallowed and
the Delay counter still decremented; but `DelayAgent::process` uses `?`
on `try_output`, so at counter 0 a failed emission returns the error and
leaves the counter at 1 (never decremented). -/
theorem C3_cex :
    DelayAgent.process (some ⟨none, none⟩) (.error .invalidConfig) ⟨"in"⟩
        (.other 1) ⟨0⟩
      = (.error .invalidConfig, ⟨1⟩, [], some 1000) := by decide

/-- C3, amended: emit failures in the background loops (Interval,
Schedule, Throttle cycle) are logged and swallowed — the loop continues
and the state transition is the same as on success; but the `process`
calls of Delay and Throttle propagate the emit error: Delay leaves its
in-flight counter incremented (not decremented), Throttle leaves the
just-started timer installed with the queue untouched. -/
theorem C3_emit_failures :
    (∀ (ok : Bool) (t : Nat) (w : IntervalTimerAgent),
      w.timer_handle ≠ none →
      IntervalTimerAgent.wake ok t w
        = (w, if ok then [⟨CH_UNIT, .unit⟩] else [], true)) ∧
    (∀ (ok : Bool) (now : Int) (t : Nat) (w : ScheduleTimerAgent),
      w.timer_handle ≠ none →
      ScheduleTimerAgent.wake true ok now t w
        = (w, if ok then [⟨CH_TIME, .integer now⟩] else [], true)) ∧
    (∀ (ok : Bool) (t : Nat) (s : ThrottleTimeAgent),
      (ThrottleTimeAgent.wake ok t s).1
          = (ThrottleTimeAgent.wake true t s).1 ∧
        (ThrottleTimeAgent.wake ok t s).2.2
          = (ThrottleTimeAgent.wake true t s).2.2) ∧
    (∀ (cfg : DelayConfig) (ctx : AgentContext) (d : AgentData)
      (s : DelayAgent) (e : AgentError),
      s.num_waiting_data
          < get_integer_or cfg.max_num_data MAX_NUM_DATA_DEFAULT →
      DelayAgent.process (some cfg) (.error e) ctx d s
        = (.error e, ⟨s.num_waiting_data + 1⟩, [],
            some (u64_of_i64 (get_integer_or cfg.delay DELAY_MS_DEFAULT)))) ∧
    (∀ (ctx : AgentContext) (d : AgentData) (s : ThrottleTimeAgent)
      (e : AgentError), s.timer_handle = none →
      ThrottleTimeAgent.process (.error e) ctx d s
        = (.error e, s.start_timer, [])) := by
  refine ⟨?_, ?_, ?_, ?_, ?_⟩
  · intro ok t w h
    simp [IntervalTimerAgent.wake, h]
  · intro ok now t w h
    simp [ScheduleTimerAgent.wake, h]
  · intro ok t s
    unfold ThrottleTimeAgent.wake
    by_cases h : s.timer_handle = none
    · simp [h]
    · simp only [h, if_false]
      cases s.waiting_data with
      | nil => exact ⟨rfl, rfl⟩
      | cons a rest =>
        obtain ⟨actx, ad⟩ := a
        by_cases hr : rest.isEmpty <;> simp [hr]
  · intro cfg ctx d s e h
    have h' : ¬(get_integer_or cfg.max_num_data MAX_NUM_DATA_DEFAULT
        ≤ s.num_waiting_data) := by omega
    simp [DelayAgent.process, DelayAgent.acquire, h']
  · intro ctx d s e h
    simp [ThrottleTimeAgent.process, h]

/-- C3, witness: the amended theorem at concrete states — an interval
wake with a failed emission continues with the state untouched, and a
Delay `process` with a failed emission at counter 0. -/
theorem C3_witness :
    IntervalTimerAgent.wake false 0 ⟨1000, some 0, [0], 1, .Start⟩
      = (⟨1000, some 0, [0], 1, .Start⟩, [], true) ∧
    DelayAgent.process (some ⟨some 250, some 5⟩) (.error .noConfig) ⟨"a"⟩
        (.other 2) ⟨0⟩
      = (.error .noConfig, ⟨0 + 1⟩, [],
          some (u64_of_i64 (get_integer_or (some 250) DELAY_MS_DEFAULT))) := by
  constructor
  · have h := C3_emit_failures.1 false 0 ⟨1000, some 0, [0], 1, .Start⟩
      (by decide)
    simpa using h
  · exact C3_emit_failures.2.2.2.1 ⟨some 250, some 5⟩ ⟨"a"⟩ (.other 2) ⟨0⟩
      .noConfig (by decide)

/-- C2, counterexample: the claim says the cycle task re-arms whenever
it wakes to a non-empty queue and that the slot is released only on a
wake that finds the queue empty.  In the code, a wake that pops the last
queued item releases the slot in the same iteration: here the task wakes
to the non-empty queue `[x]`, emits `x`, and exits with the slot cleared
— and an arrival right after is emitted immediately, with no full
`time` period after `x`'s emission. -/
theorem C2_cex :
    ThrottleTimeAgent.wake true 0
        ⟨1000, 1, [(⟨"in"⟩, .other 5)], some 0, [0], 1⟩
      = (⟨1000, 1, [], none, [], 1⟩, [⟨"in", .other 5⟩], false) ∧
    (ThrottleTimeAgent.process (.ok ()) ⟨"in"⟩ (.other 6)
        ⟨1000, 1, [], none, [], 1⟩).2.2 = [⟨"in", .other 6⟩] := by
  exact ⟨by decide, by decide⟩

/-- C2, amended: when the cycle task wakes, it pops and emits the oldest
queued item; it re-arms another `time` sleep only when further items
remain, and releases the slot (and exits) when the queue is empty after
the pop — including the wake that emitted the last queued item.  While
the slot is occupied a `process` call emits nothing; with the slot free
it emits immediately. -/
theorem C2_throttle_cycle :
    (∀ (t : Nat) (s : ThrottleTimeAgent) (a b : AgentContext × AgentData)
      (rest : List (AgentContext × AgentData)), s.timer_handle ≠ none →
      s.waiting_data = a :: b :: rest →
      ThrottleTimeAgent.wake true t s
        = ({ s with waiting_data := b :: rest }, [⟨a.1.ch, a.2⟩], true)) ∧
    (∀ (t : Nat) (s : ThrottleTimeAgent) (a : AgentContext × AgentData),
      s.timer_handle ≠ none → s.waiting_data = [a] →
      ThrottleTimeAgent.wake true t s
        = ({ s with
              waiting_data := []
              timer_handle := none
              live := s.live.erase t }, [⟨a.1.ch, a.2⟩], false)) ∧
    (∀ (t : Nat) (s : ThrottleTimeAgent), s.timer_handle ≠ none →
      s.waiting_data = [] →
      ThrottleTimeAgent.wake true t s
        = ({ s with timer_handle := none, live := s.live.erase t },
            [], false)) ∧
    (∀ (er : Except AgentError Unit) (ctx : AgentContext) (d : AgentData)
      (s : ThrottleTimeAgent), s.timer_handle ≠ none →
      (ThrottleTimeAgent.process er ctx d s).2.2 = []) ∧
    (∀ (ctx : AgentContext) (d : AgentData) (s : ThrottleTimeAgent),
      s.timer_handle = none →
      ThrottleTimeAgent.process (.ok ()) ctx d s
        = (.ok (), s.start_timer, [⟨ctx.ch, d⟩])) := by
  refine ⟨?_, ?_, ?_, ?_, ?_⟩
  · intro t s a b rest h hq
    obtain ⟨actx, ad⟩ := a
    simp [ThrottleTimeAgent.wake, h, hq]
  · intro t s a h hq
    obtain ⟨actx, ad⟩ := a
    simp [ThrottleTimeAgent.wake, h, hq]
  · intro t s h hq
    simp [ThrottleTimeAgent.wake, h, hq]
  · intro er ctx d s h
    have h' : s.timer_handle.isSome := Option.isSome_iff_ne_none.mpr h
    unfold ThrottleTimeAgent.process
    rw [if_pos h']
    by_cases hm : s.max_num_data = 0
    · simp [hm]
    · simp [hm]
  · intro ctx d s h
    simp [ThrottleTimeAgent.process, h]

/-- C2, witness: the amended behavior at concrete states — a wake with
two queued items emits the oldest and re-arms; `process` during a cycle
emits nothing. -/
theorem C2_witness :
    ThrottleTimeAgent.wake true 0
        ⟨500, -1, [(⟨"a"⟩, .other 1), (⟨"b"⟩, .other 2)], some 0, [0], 1⟩
      = (⟨500, -1, [(⟨"b"⟩, .other 2)], some 0, [0], 1⟩,
          [⟨"a", .other 1⟩], true) ∧
    (ThrottleTimeAgent.process (.ok ()) ⟨"c"⟩ (.other 3)
        ⟨500, -1, [], some 0, [0], 1⟩).2.2 = [] := by
  constructor
  · have h := C2_throttle_cycle.1 0
      ⟨500, -1, [(⟨"a"⟩, .other 1), (⟨"b"⟩, .other 2)], some 0, [0], 1⟩
      (⟨"a"⟩, .other 1) (⟨"b"⟩, .other 2) [] (by decide) (by decide)
    simpa using h
  · exact C2_throttle_cycle.2.2.2.1 (.ok ()) ⟨"c"⟩ (.other 3)
      ⟨500, -1, [], some 0, [0], 1⟩ (by decide)

theorem set_max_none (s : ThrottleTimeAgent) :
    ThrottleTimeAgent.set_max none s = s := rfl

theorem set_max_some (m : Int) (s : ThrottleTimeAgent) :
    ThrottleTimeAgent.set_max (some m) s =
      if s.max_num_data ≠ m then
        { s with
          waiting_data :=
            if 0 ≤ m ∧ m.toNat < s.waiting_data.length then
              s.waiting_data.drop (s.waiting_data.length - m.toNat)
            else s.waiting_data
          max_num_data := m }
      else s := rfl

theorem set_config_none_some (m : Int) (s : ThrottleTimeAgent) :
    ThrottleTimeAgent.set_config ⟨none, some m⟩ s
      = (.ok (), ThrottleTimeAgent.set_max (some m) s) := rfl

/-- The `time` block of the throttle's `set_config` touches only
`time_ms`. -/
theorem set_time_fields {t : Option String} {s s1 : ThrottleTimeAgent}
    (h : ThrottleTimeAgent.set_time t s = .ok s1) :
    s1.waiting_data = s.waiting_data ∧ s1.max_num_data = s.max_num_data := by
  unfold ThrottleTimeAgent.set_time at h
  split at h
  · cases h
    exact ⟨rfl, rfl⟩
  · split at h
    · cases h
    · split at h <;> (cases h; exact ⟨rfl, rfl⟩)

/-- The `max_num_data` block of the throttle's `set_config` restores the
queue policy for the new bound. -/
theorem queueInv_set_max {m : Option Int} {s : ThrottleTimeAgent}
    (hinv : queueInv s) : queueInv (ThrottleTimeAgent.set_max m s) := by
  obtain ⟨h0, hpos⟩ := hinv
  cases m with
  | none => exact ⟨h0, hpos⟩
  | some m =>
    rw [set_max_some]
    by_cases hne : s.max_num_data ≠ m
    · rw [if_pos hne]
      refine ⟨fun hz => ?_, fun hp => ?_⟩
      · simp only at hz
        subst hz
        show (if 0 ≤ (0 : Int) ∧ (0 : Int).toNat < s.waiting_data.length
            then s.waiting_data.drop (s.waiting_data.length - (0 : Int).toNat)
            else s.waiting_data) = []
        split
        · next hc =>
          have : s.waiting_data.length - (0 : Int).toNat
              = s.waiting_data.length := by omega
          rw [this, List.drop_length]
        · next hc =>
          have : s.waiting_data.length = 0 := by
            push_neg at hc
            have := hc (by omega)
            omega
          exact List.eq_nil_of_length_eq_zero this
      · simp only at hp
        show (if 0 ≤ m ∧ m.toNat < s.waiting_data.length
            then s.waiting_data.drop (s.waiting_data.length - m.toNat)
            else s.waiting_data).length ≤ m.toNat
        split
        · next hc =>
          simp only [List.length_drop]
          omega
        · next hc =>
          push_neg at hc
          have := hc (by omega)
          omega
    · rw [if_neg hne]
      push_neg at hne
      exact ⟨fun hz => h0 hz, fun hp => hpos hp⟩

/-- C5: after every `process` and `set_config` call the Throttle queue
satisfies the `max_num_data` policy — bound 0 keeps it empty, a positive
bound caps its length with the oldest entries dropped on overflow and on
lowering the bound, a negative bound never drops, and the order is FIFO
(arrivals appended at the tail, the wake emits the head). -/
theorem C5_queue_policy :
    (∀ (er : Except AgentError Unit) (ctx : AgentContext) (d : AgentData)
      (s : ThrottleTimeAgent), queueInv s →
      queueInv (ThrottleTimeAgent.process er ctx d s).2.1) ∧
    (∀ (cfg : ThrottleConfig) (s : ThrottleTimeAgent), queueInv s →
      queueInv (ThrottleTimeAgent.set_config cfg s).2) ∧
    (∀ (er : Except AgentError Unit) (ctx : AgentContext) (d : AgentData)
      (s : ThrottleTimeAgent), s.max_num_data < 0 → s.timer_handle ≠ none →
      (ThrottleTimeAgent.process er ctx d s).2.1.waiting_data
        = s.waiting_data ++ [(ctx, d)]) ∧
    (∀ (m : Int) (s : ThrottleTimeAgent), m < 0 →
      (ThrottleTimeAgent.set_config ⟨none, some m⟩ s).2.waiting_data
        = s.waiting_data) ∧
    (∀ (er : Except AgentError Unit) (ctx : AgentContext) (d : AgentData)
      (s : ThrottleTimeAgent), 0 < s.max_num_data → s.timer_handle ≠ none →
      s.waiting_data.length = s.max_num_data.toNat →
      (ThrottleTimeAgent.process er ctx d s).2.1.waiting_data
        = (s.waiting_data ++ [(ctx, d)]).drop 1) ∧
    (∀ (m : Int) (s : ThrottleTimeAgent), 0 ≤ m → m ≠ s.max_num_data →
      m.toNat < s.waiting_data.length →
      (ThrottleTimeAgent.set_config ⟨none, some m⟩ s).2.waiting_data
        = s.waiting_data.drop (s.waiting_data.length - m.toNat)) ∧
    (∀ (t : Nat) (s : ThrottleTimeAgent) (a : AgentContext × AgentData)
      (rest : List (AgentContext × AgentData)), s.timer_handle ≠ none →
      s.waiting_data = a :: rest →
      (ThrottleTimeAgent.wake true t s).2.1 = [⟨a.1.ch, a.2⟩] ∧
        (ThrottleTimeAgent.wake true t s).1.waiting_data = rest) := by
  refine ⟨?_, ?_, ?_, ?_, ?_, ?_, ?_⟩
  · intro er ctx d s hinv
    obtain ⟨h0, hpos⟩ := hinv
    unfold ThrottleTimeAgent.process
    by_cases hs : s.timer_handle.isSome
    · rw [if_pos hs]
      by_cases hm : s.max_num_data = 0
      · rw [if_pos hm]
        exact ⟨h0, hpos⟩
      · rw [if_neg hm]
        refine ⟨fun hz => absurd hz hm, fun hp => ?_⟩
        have hlen : s.waiting_data.length ≤ s.max_num_data.toNat := hpos hp
        show ((if 0 < s.max_num_data ∧
            s.max_num_data.toNat < (s.waiting_data ++ [(ctx, d)]).length
          then (s.waiting_data ++ [(ctx, d)]).drop 1
          else s.waiting_data ++ [(ctx, d)]).length
            ≤ s.max_num_data.toNat)
        split
        · next hc =>
          simp only [List.length_drop, List.length_append,
            List.length_singleton]
          omega
        · next hc =>
          simp only [List.length_append, List.length_singleton]
          push_neg at hc
          have := hc hp
          simp only [List.length_append, List.length_singleton] at this
          omega
    · rw [if_neg hs]
      cases er with
      | error e => exact ⟨h0, hpos⟩
      | ok u => exact ⟨h0, hpos⟩
  · intro cfg s hinv
    unfold ThrottleTimeAgent.set_config
    cases ht : ThrottleTimeAgent.set_time cfg.time s with
    | error e => exact hinv
    | ok s1 =>
      obtain ⟨hwd, hmx⟩ := set_time_fields ht
      refine queueInv_set_max ⟨fun hz => ?_, fun hp => ?_⟩
      · rw [hwd]
        exact hinv.1 (by rw [← hmx]; exact hz)
      · rw [hwd, hmx]
        exact hinv.2 (by rw [← hmx]; exact hp)
  · intro er ctx d s hm hs
    have hs' : s.timer_handle.isSome = true := Option.isSome_iff_ne_none.mpr hs
    have hm0 : s.max_num_data ≠ 0 := by omega
    have hc : ¬(0 < s.max_num_data ∧
        s.max_num_data.toNat < (s.waiting_data ++ [(ctx, d)]).length) := by
      intro ⟨h1, _⟩
      omega
    unfold ThrottleTimeAgent.process
    rw [if_pos hs', if_neg hm0, if_neg hc]
  · intro m s hm
    rw [set_config_none_some, set_max_some]
    by_cases hne : s.max_num_data ≠ m
    · rw [if_pos hne]
      have hc : ¬(0 ≤ m ∧ m.toNat < s.waiting_data.length) := by
        intro ⟨h1, _⟩
        omega
      rw [if_neg hc]
    · rw [if_neg hne]
  · intro er ctx d s hp hs hlen
    have hs' : s.timer_handle.isSome = true := Option.isSome_iff_ne_none.mpr hs
    have hm0 : s.max_num_data ≠ 0 := by omega
    have hc : 0 < s.max_num_data ∧
        s.max_num_data.toNat < (s.waiting_data ++ [(ctx, d)]).length := by
      refine ⟨hp, ?_⟩
      simp only [List.length_append, List.length_singleton]
      omega
    unfold ThrottleTimeAgent.process
    rw [if_pos hs', if_neg hm0, if_pos hc]
  · intro m s h0 hne hlt
    have hne' : s.max_num_data ≠ m := fun h => hne h.symm
    have hc : 0 ≤ m ∧ m.toNat < s.waiting_data.length := ⟨h0, hlt⟩
    rw [set_config_none_some, set_max_some, if_pos hne', if_pos hc]
  · intro t s a rest hs hq
    obtain ⟨actx, ad⟩ := a
    cases rest with
    | nil => simp [ThrottleTimeAgent.wake, hs, hq]
    | cons b r => simp [ThrottleTimeAgent.wake, hs, hq]

/-- C5, witness: the policy at concrete states — an overflow push with
bound 2 drops the oldest, lowering the bound from 3 to 1 drops the two
oldest, a negative bound appends without dropping. -/
theorem C5_witness :
    (ThrottleTimeAgent.process (.ok ()) ⟨"c"⟩ (.other 3)
        ⟨1000, 2, [(⟨"a"⟩, .other 1), (⟨"b"⟩, .other 2)], some 0, [0], 1⟩
      ).2.1.waiting_data
      = (([(⟨"a"⟩, .other 1), (⟨"b"⟩, .other 2)]
            : List (AgentContext × AgentData))
          ++ ([(⟨"c"⟩, AgentData.other 3)]
            : List (AgentContext × AgentData))).drop 1 ∧
    (ThrottleTimeAgent.set_config ⟨none, some 1⟩
        ⟨1000, 3, [(⟨"a"⟩, .other 1), (⟨"b"⟩, .other 2), (⟨"c"⟩, .other 3)],
          some 0, [0], 1⟩).2.waiting_data
      = ([(⟨"a"⟩, .other 1), (⟨"b"⟩, .other 2),
            (⟨"c"⟩, AgentData.other 3)]
          : List (AgentContext × AgentData)).drop (3 - 1) ∧
    (ThrottleTimeAgent.process (.ok ()) ⟨"b"⟩ (.other 2)
        ⟨1000, -1, [(⟨"a"⟩, .other 1)], some 0, [0], 1⟩).2.1.waiting_data
      = ([(⟨"a"⟩, .other 1)] : List (AgentContext × AgentData))
          ++ [(⟨"b"⟩, AgentData.other 2)] ∧
    queueInv ⟨1000, 2, [(⟨"a"⟩, .other 1), (⟨"b"⟩, .other 2)],
      some 0, [0], 1⟩ :=
  ⟨C5_queue_policy.2.2.2.2.1 (.ok ()) ⟨"c"⟩ (.other 3)
      ⟨1000, 2, [(⟨"a"⟩, .other 1), (⟨"b"⟩, .other 2)], some 0, [0], 1⟩
      (by decide) (by decide) (by decide),
    C5_queue_policy.2.2.2.2.2.1 1
      ⟨1000, 3, [(⟨"a"⟩, .other 1), (⟨"b"⟩, .other 2), (⟨"c"⟩, .other 3)],
        some 0, [0], 1⟩ (by decide) (by decide) (by decide),
    C5_queue_policy.2.2.1 (.ok ()) ⟨"b"⟩ (.other 2)
      ⟨1000, -1, [(⟨"a"⟩, .other 1)], some 0, [0], 1⟩ (by decide)
      (by decide),
    by decide⟩

/-- C6, counterexample: `ScheduleTimerAgent::set_config` never compares
the new schedule against the stored one — here the supplied schedule
string compiles to exactly the stored value, the call succeeds, and yet
the running task is replaced (handle 0 aborted, fresh handle 1
installed), contradicting the claim for the Cron Schedule emitter. -/
theorem C6_cex :
    ScheduleTimerAgent.set_config (fun str => some str) (some "0 0 * * * *")
        ⟨some "0 0 * * * *", some 0, [0], 1, .Start⟩
      = (.ok (), ⟨some "0 0 * * * *", some 1, [1], 2, .Start⟩) := by decide

/-- C6, amended: an Interval or Throttle `set_config` whose
interval/time parses to the currently stored value changes nothing (no
task restart, state unchanged); but the Schedule emitter, while running,
stops and restarts its task on every `set_config` that supplies a
compilable non-blank schedule string — even an unchanged one. -/
theorem C6_set_config_idempotence :
    (∀ (str : String) (v : Nat) (w : IntervalTimerAgent),
      parse_duration_to_ms str = .ok v → v = w.interval_ms →
      IntervalTimerAgent.set_config (some str) w = (.ok (), w)) ∧
    (∀ (str : String) (v : Nat) (s : ThrottleTimeAgent),
      parse_duration_to_ms str = .ok v → v = s.time_ms →
      ThrottleTimeAgent.set_config ⟨some str, none⟩ s = (.ok (), s)) ∧
    (∀ (compile : String → Option String) (str sch : String)
      (w : ScheduleTimerAgent), w.status = .Start →
      (rustTrim str.data).isEmpty = false → compile str = some sch →
      (ScheduleTimerAgent.set_config compile (some str) w).1 = .ok () ∧
        (ScheduleTimerAgent.set_config compile (some str) w).2.timer_handle
          = some w.next_task) := by
  refine ⟨?_, ?_, ?_⟩
  · intro str v w hp hv
    simp [IntervalTimerAgent.set_config, hp, hv]
  · intro str v s hp hv
    simp [ThrottleTimeAgent.set_config, ThrottleTimeAgent.set_time,
      ThrottleTimeAgent.set_max, hp, hv]
  · intro compile str sch w hst htr hcs
    cases ho : w.timer_handle with
    | none =>
      simp [ScheduleTimerAgent.set_config, ScheduleTimerAgent.parse_schedule,
        htr, hcs, hst, ScheduleTimerAgent.stop_timer,
        ScheduleTimerAgent.start_timer, ho]
    | some t =>
      simp [ScheduleTimerAgent.set_config, ScheduleTimerAgent.parse_schedule,
        htr, hcs, hst, ScheduleTimerAgent.stop_timer,
        ScheduleTimerAgent.start_timer, ho]

/-- C6, witness: unchanged interval `"1s"` (already stored as 1000 ms)
leaves a running Interval agent untouched; same for Throttle; a running
Schedule agent gets a fresh task handle even for a compiling string. -/
theorem C6_witness :
    IntervalTimerAgent.set_config (some "1s") ⟨1000, some 0, [0], 1, .Start⟩
      = (.ok (), ⟨1000, some 0, [0], 1, .Start⟩) ∧
    ThrottleTimeAgent.set_config ⟨some "1s", none⟩ ⟨1000, 0, [], some 0, [0], 1⟩
      = (.ok (), ⟨1000, 0, [], some 0, [0], 1⟩) ∧
    (ScheduleTimerAgent.set_config (fun str => some str) (some "* * * * * *")
        ⟨some "* * * * * *", some 3, [3], 4, .Start⟩).2.timer_handle
      = some 4 :=
  ⟨C6_set_config_idempotence.1 "1s" 1000 ⟨1000, some 0, [0], 1, .Start⟩
      (by decide) (by decide),
    C6_set_config_idempotence.2.1 "1s" 1000 ⟨1000, 0, [], some 0, [0], 1⟩
      (by decide) (by decide),
    (C6_set_config_idempotence.2.2 (fun str => some str) "* * * * * *"
      "* * * * * *" ⟨some "* * * * * *", some 3, [3], 4, .Start⟩
      (by decide) (by decide) (by decide)).2⟩

/-- C8: an empty or blank schedule string disables scheduling — while
running, `set_config` clears the compiled schedule and stops the
background task, and `start` with no schedule starts none; a non-blank
string that fails to compile makes `set_config` and `new` return a
configuration error with the previously compiled schedule and the timer
slot untouched. -/
theorem C8_schedule_empty_invalid :
    (∀ (compile : String → Option String) (str : String)
      (w : ScheduleTimerAgent), (rustTrim str.data).isEmpty = true →
      w.status = .Start →
      (ScheduleTimerAgent.set_config compile (some str) w).1 = .ok () ∧
        (ScheduleTimerAgent.set_config compile (some str) w).2.cron_schedule
          = none ∧
        (ScheduleTimerAgent.set_config compile (some str) w).2.timer_handle
          = none) ∧
    (∀ w : ScheduleTimerAgent, w.cron_schedule = none →
      ScheduleTimerAgent.start w = .ok w) ∧
    (∀ (compile : String → Option String) (str : String)
      (w : ScheduleTimerAgent), (rustTrim str.data).isEmpty = false →
      compile str = none →
      ScheduleTimerAgent.set_config compile (some str) w
        = (.error .invalidConfig, w)) ∧
    (∀ (compile : String → Option String) (str : String),
      (rustTrim str.data).isEmpty = false → compile str = none →
      ScheduleTimerAgent.new compile (some ⟨some str⟩)
        = .error .invalidConfig) := by
  refine ⟨?_, ?_, ?_, ?_⟩
  · intro compile str w htr hst
    cases ho : w.timer_handle with
    | none =>
      simp [ScheduleTimerAgent.set_config, ScheduleTimerAgent.parse_schedule,
        htr, hst, ScheduleTimerAgent.stop_timer, ho]
    | some t =>
      simp [ScheduleTimerAgent.set_config, ScheduleTimerAgent.parse_schedule,
        htr, hst, ScheduleTimerAgent.stop_timer, ho]
  · intro w h
    simp [ScheduleTimerAgent.start, h]
  · intro compile str w htr hcs
    simp [ScheduleTimerAgent.set_config, ScheduleTimerAgent.parse_schedule,
      htr, hcs]
  · intro compile str htr hcs
    have hne : str.data.isEmpty = false := by
      cases hd : str.data with
      | nil =>
        rw [show rustTrim str.data = [] by rw [hd]; rfl] at htr
        cases htr
      | cons c t => rfl
    simp [ScheduleTimerAgent.new, ScheduleTimerAgent.parse_schedule,
      hne, htr, hcs]

/-- C8, witness: a blank schedule on a running agent stops the task and
clears the schedule; `start` with no schedule is a no-op; a
non-compiling string is rejected with the agent unchanged, by
`set_config` and by `new`. -/
theorem C8_witness :
    (ScheduleTimerAgent.set_config (fun str => some str) (some " ")
        ⟨some "* * * * * *", some 0, [0], 1, .Start⟩).2.timer_handle
      = none ∧
    ScheduleTimerAgent.start ⟨none, none, [], 5, .Start⟩
      = .ok ⟨none, none, [], 5, .Start⟩ ∧
    ScheduleTimerAgent.set_config (fun _ => none) (some "bogus")
        ⟨some "* * * * * *", some 0, [0], 1, .Start⟩
      = (.error .invalidConfig, ⟨some "* * * * * *", some 0, [0], 1, .Start⟩) ∧
    ScheduleTimerAgent.new (fun _ => none) (some ⟨some "bogus"⟩)
      = .error .invalidConfig :=
  ⟨(C8_schedule_empty_invalid.1 (fun str => some str) " "
      ⟨some "* * * * * *", some 0, [0], 1, .Start⟩ (by decide)
      (by decide)).2.2,
    C8_schedule_empty_invalid.2.1 ⟨none, none, [], 5, .Start⟩ (by decide),
    C8_schedule_empty_invalid.2.2.1 (fun _ => none) "bogus"
      ⟨some "* * * * * *", some 0, [0], 1, .Start⟩ (by decide) (by decide),
    C8_schedule_empty_invalid.2.2.2 (fun _ => none) "bogus" (by decide)
      (by decide)⟩

/-- C9, counterexample: `start_timer` stores the new handle by
overwriting the slot without aborting the previous task (dropping a
`JoinHandle` detaches it).  After two `start` calls both tasks 0 and 1
are live, and the superseded task 0 still emits on its next wake since
its stopped-check only tests whether the slot is empty — so two active
tasks exist for one logical slot. -/
theorem C9_cex :
    IntervalTimerAgent.start (IntervalTimerAgent.start
        ⟨1000, none, [], 0, .Start⟩)
      = ⟨1000, some 1, [0, 1], 2, .Start⟩ ∧
    IntervalTimerAgent.wake true 0 ⟨1000, some 1, [0, 1], 2, .Start⟩
      = (⟨1000, some 1, [0, 1], 2, .Start⟩, [⟨CH_UNIT, .unit⟩], true) := by
  exact ⟨by decide, by decide⟩

/-- C9, amended: installing a task overwrites the slot without aborting
the previous task, so a bare `start` while a task is installed leaves
two live tasks; but every sequence that stops before starting preserves
at-most-one-live-task — `stop`, `set_config` (which restarts via
`stop_timer` then `start_timer`), wake steps, and a `start` issued with
the slot empty all preserve the invariant, as do the Throttle
operations (its `process` starts the cycle task only when the slot is
empty). -/
theorem C9_single_task :
    (∀ w : IntervalTimerAgent, w.oneTask → w.stop.oneTask) ∧
    (∀ (w : IntervalTimerAgent) (cfg : Option String), w.oneTask →
      (IntervalTimerAgent.set_config cfg w).2.oneTask) ∧
    (∀ (w : IntervalTimerAgent) (ok : Bool) (t : Nat), w.oneTask →
      (IntervalTimerAgent.wake ok t w).1.oneTask) ∧
    (∀ w : IntervalTimerAgent, w.oneTask → w.timer_handle = none →
      w.start.oneTask) ∧
    (∀ (s : ThrottleTimeAgent) (er : Except AgentError Unit)
      (ctx : AgentContext) (d : AgentData), s.oneTask →
      (ThrottleTimeAgent.process er ctx d s).2.1.oneTask) ∧
    (∀ (s : ThrottleTimeAgent) (ok : Bool) (t : Nat), s.oneTask →
      t ∈ s.live → (ThrottleTimeAgent.wake ok t s).1.oneTask) ∧
    (∀ (s : ThrottleTimeAgent) (cfg : ThrottleConfig), s.oneTask →
      (ThrottleTimeAgent.set_config cfg s).2.oneTask) ∧
    (∀ s : ThrottleTimeAgent, s.oneTask → s.stop.oneTask) := by
  refine ⟨?_, ?_, ?_, ?_, ?_, ?_, ?_, ?_⟩
  · intro w h
    cases ho : w.timer_handle with
    | none =>
      simp [IntervalTimerAgent.stop, IntervalTimerAgent.stop_timer, ho]
      simpa [IntervalTimerAgent.oneTask, ho] using h
    | some t =>
      have hl : w.live = [t] := by
        simpa [IntervalTimerAgent.oneTask, ho] using h
      simp [IntervalTimerAgent.stop, IntervalTimerAgent.stop_timer, ho,
        IntervalTimerAgent.oneTask, hl]
  · intro w cfg h
    unfold IntervalTimerAgent.set_config
    split
    · exact h
    · split
      · exact h
      · split
        · split
          · cases ho : w.timer_handle with
            | none =>
              have hl : w.live = [] := by
                simpa [IntervalTimerAgent.oneTask, ho] using h
              simp [IntervalTimerAgent.stop_timer,
                IntervalTimerAgent.start_timer, ho,
                IntervalTimerAgent.oneTask, hl]
            | some t =>
              have hl : w.live = [t] := by
                simpa [IntervalTimerAgent.oneTask, ho] using h
              simp [IntervalTimerAgent.stop_timer,
                IntervalTimerAgent.start_timer, ho,
                IntervalTimerAgent.oneTask, hl]
          · exact h
        · exact h
  · intro w ok t h
    unfold IntervalTimerAgent.wake
    by_cases ho : w.timer_handle = none
    · rw [if_pos ho]
      have hl : w.live = [] := by
        simpa [IntervalTimerAgent.oneTask, ho] using h
      simp [IntervalTimerAgent.oneTask, ho, hl]
    · rw [if_neg ho]
      exact h
  · intro w h ho
    have hl : w.live = [] := by
      simpa [IntervalTimerAgent.oneTask, ho] using h
    simp [IntervalTimerAgent.start, IntervalTimerAgent.start_timer,
      IntervalTimerAgent.oneTask, hl]
  · intro s er ctx d h
    unfold ThrottleTimeAgent.process
    by_cases hs : s.timer_handle.isSome
    · rw [if_pos hs]
      by_cases hm : s.max_num_data = 0
      · rw [if_pos hm]
        exact h
      · rw [if_neg hm]
        obtain ⟨t, ho⟩ := Option.isSome_iff_exists.mp hs
        have hl : s.live = [t] := by
          simpa [ThrottleTimeAgent.oneTask, ho] using h
        simp [ThrottleTimeAgent.oneTask, ho, hl]
    · rw [if_neg hs]
      have ho : s.timer_handle = none := Option.not_isSome_iff_eq_none.mp hs
      have hl : s.live = [] := by
        simpa [ThrottleTimeAgent.oneTask, ho] using h
      cases er with
      | error e =>
        simp [ThrottleTimeAgent.start_timer, ThrottleTimeAgent.oneTask, hl]
      | ok u =>
        simp [ThrottleTimeAgent.start_timer, ThrottleTimeAgent.oneTask, hl]
  · intro s ok t h ht
    unfold ThrottleTimeAgent.wake
    by_cases ho : s.timer_handle = none
    · rw [if_pos ho]
      have hl : s.live = [] := by
        simpa [ThrottleTimeAgent.oneTask, ho] using h
      simp [ThrottleTimeAgent.oneTask, ho, hl]
    · rw [if_neg ho]
      obtain ⟨u, hu⟩ := Option.ne_none_iff_exists'.mp ho
      have hl : s.live = [u] := by
        simpa [ThrottleTimeAgent.oneTask, hu] using h
      have htu : t = u := by
        rw [hl] at ht
        simpa using ht
      subst htu
      cases hq : s.waiting_data with
      | nil => simp [ThrottleTimeAgent.oneTask, hl]
      | cons a rest =>
        obtain ⟨actx, ad⟩ := a
        by_cases hr : rest.isEmpty
        · simp [hr, ThrottleTimeAgent.oneTask, hl]
        · simp [hr, ThrottleTimeAgent.oneTask, hl, hu]
  · intro s cfg h
    unfold ThrottleTimeAgent.set_config
    split
    · exact h
    · next s1 hts =>
      have hfields : s1.timer_handle = s.timer_handle ∧ s1.live = s.live := by
        unfold ThrottleTimeAgent.set_time at hts
        split at hts
        · cases hts
          exact ⟨rfl, rfl⟩
        · split at hts
          · cases hts
          · split at hts <;> (cases hts; exact ⟨rfl, rfl⟩)
      have h1 : s1.oneTask := by
        unfold ThrottleTimeAgent.oneTask at h ⊢
        rw [hfields.1, hfields.2]
        exact h
      show (ThrottleTimeAgent.set_max cfg.max_num_data s1).oneTask
      cases hm : cfg.max_num_data with
      | none =>
        rw [set_max_none]
        exact h1
      | some m =>
        rw [set_max_some]
        by_cases hne : s1.max_num_data ≠ m
        · rw [if_pos hne]
          unfold ThrottleTimeAgent.oneTask at h1 ⊢
          exact h1
        · rw [if_neg hne]
          exact h1
  · intro s h
    cases ho : s.timer_handle with
    | none =>
      simpa [ThrottleTimeAgent.stop, ThrottleTimeAgent.stop_timer, ho]
        using h
    | some t =>
      have hl : s.live = [t] := by
        simpa [ThrottleTimeAgent.oneTask, ho] using h
      simp [ThrottleTimeAgent.stop, ThrottleTimeAgent.stop_timer, ho,
        ThrottleTimeAgent.oneTask, hl]

/-- C9, witness: the amended invariant at concrete states — a restart
via `set_config` on a running Interval agent preserves a single live
task, as does a `start` from an empty slot. -/
theorem C9_witness :
    (IntervalTimerAgent.set_config (some "2s")
        ⟨1000, some 0, [0], 1, .Start⟩).2.oneTask ∧
    IntervalTimerAgent.oneTask
      (IntervalTimerAgent.start ⟨1000, none, [], 0, .Start⟩) ∧
    (ThrottleTimeAgent.wake true 0
        ⟨1000, 0, [], some 0, [0], 1⟩).1.oneTask :=
  ⟨C9_single_task.2.1 ⟨1000, some 0, [0], 1, .Start⟩ (some "2s")
      (by decide),
    C9_single_task.2.2.2.1 ⟨1000, none, [], 0, .Start⟩ (by decide)
      (by decide),
    C9_single_task.2.2.2.2.2.1 ⟨1000, 0, [], some 0, [0], 1⟩ true 0
      (by decide) (by decide)⟩

end AskitTime
